import Mathlib

/-!
Verification of the TSNN-P core (layered-graph state container with
synchronization and health scoring) against its specification.

The embedding translates `src/core/fat_tree_hierarchy.py`,
`src/core/spc_framework.py` and `src/core/system_architecture.py` into Lean.
Conventions of the embedding:

* NumPy float arithmetic is modelled over `ℝ` (exact reals).  A float NaN can
  arise in the source only from a division whose divisor is exactly `0`
  (`x / np.linalg.norm(x)` with a zero-norm `x`, or the fidelity quotient with
  a zero Frobenius norm).  Wherever that can happen the embedded computation
  returns an `Option` value and `none` models the NaN result; NaN propagation
  through later arithmetic is modelled by `Option`-absorbing operations.
* Python exceptions are modelled with `Except PyErr`.  `np.linalg.eigvals`
  raises `LinAlgError` when its argument contains NaNs (numpy's
  `_assert_finite` check); `np.vdot` and broadcasting raise `ValueError` on
  shape mismatch; `np.random.rand` raises `ValueError` on a negative
  dimension; a missing dict key raises `KeyError`.
* `np.random.rand` / `np.random.normal` draws are passed as explicit
  parameters (the standard shallow embedding of a random source).
* Python dicts are association lists with insert-overwrites semantics
  (`dictInsert`), preserving insertion order as Python 3.7+ dicts do.
-/

set_option maxHeartbeats 1000000

noncomputable section

namespace TSNNP

/-- Python exception classes that the translated code can raise, together
with the two error classes named by the specification's error taxonomy
(§7).  `degenerateInputError` and `configurationError` are declared nowhere
in `src/` and are raised by no code path; they are included so that claims
naming them can be stated and compared with what the code actually does. -/
inductive PyErr where
  | keyError
  | valueError
  | linAlgError
  | runtimeError
  | degenerateInputError
  | configurationError
deriving DecidableEq

/-! ### Python dictionaries as association lists -/

variable {K V : Type}

/-- Python dict assignment `d[k] = v`: overwrite in place if the key is present
(keeping its position, as Python 3.7+ dicts do), else append at the end. -/
def dictInsert [DecidableEq K] (k : K) (v : V) : List (K × V) → List (K × V)
  | [] => [(k, v)]
  | p :: rest => if k = p.1 then (k, v) :: rest else p :: dictInsert k v rest

/-- Python `d.get(k)`-style lookup returning `none` when the key is absent. -/
def dictFind [DecidableEq K] (k : K) : List (K × V) → Option V
  | [] => none
  | p :: rest => if k = p.1 then some p.2 else dictFind k rest

/-- Python dict subscript `d[k]`: raises `KeyError` when the key is absent. -/
def dictGet [DecidableEq K] (d : List (K × V)) (k : K) : Except PyErr V :=
  match dictFind k d with
  | some v => Except.ok v
  | none => Except.error PyErr.keyError

/-- A sequence of dict assignments `d[k] = v`, one per pair, in order. -/
def insertAll [DecidableEq K] (ps : List (K × V)) (d : List (K × V)) :
    List (K × V) :=
  ps.foldl (fun acc p => dictInsert p.1 p.2 acc) d

theorem dictInsert_of_not_mem [DecidableEq K] {k : K} {v : V}
    {l : List (K × V)} (h : k ∉ l.map Prod.fst) :
    dictInsert k v l = l ++ [(k, v)] := by
  induction l with
  | nil => rfl
  | cons p rest ih =>
      simp only [List.map_cons, List.mem_cons] at h
      push_neg at h
      simp [dictInsert, h.1, ih h.2]

theorem insertAll_of_nodup [DecidableEq K] :
    ∀ (ps d : List (K × V)), ((d ++ ps).map Prod.fst).Nodup →
      insertAll ps d = d ++ ps := by
  intro ps
  induction ps with
  | nil => intro d _; simp [insertAll]
  | cons p rest ih =>
      intro d h
      have hkeys : ((d ++ p :: rest).map Prod.fst) =
          d.map Prod.fst ++ p.1 :: rest.map Prod.fst := by
        simp
      rw [hkeys] at h
      have hnotin : p.1 ∉ d.map Prod.fst := by
        intro hmem
        have := (List.nodup_append.mp h).2.2
        exact this hmem (by simp)
      have hstep : dictInsert p.1 p.2 d = d ++ [(p.1, p.2)] :=
        dictInsert_of_not_mem hnotin
      have hrearrange : (((d ++ [(p.1, p.2)]) ++ rest).map Prod.fst).Nodup := by
        have : (d ++ [(p.1, p.2)]) ++ rest = d ++ (p.1, p.2) :: rest := by
          simp
        rw [this]
        simpa using h
      calc insertAll (p :: rest) d
      _ = insertAll rest (dictInsert p.1 p.2 d) := rfl
      _ = insertAll rest (d ++ [(p.1, p.2)]) := by rw [hstep]
      _ = (d ++ [(p.1, p.2)]) ++ rest := ih _ hrearrange
      _ = d ++ p :: rest := by simp

theorem dictFind_dictInsert_self [DecidableEq K] (k : K) (v : V)
    (l : List (K × V)) : dictFind k (dictInsert k v l) = some v := by
  induction l with
  | nil => simp [dictInsert, dictFind]
  | cons p rest ih =>
      by_cases h : k = p.1
      · simp [dictInsert, dictFind, h]
      · simp [dictInsert, dictFind, h, ih]

theorem length_dictInsert_of_mem [DecidableEq K] {k : K} (v : V)
    {l : List (K × V)} (h : k ∈ l.map Prod.fst) :
    (dictInsert k v l).length = l.length := by
  induction l with
  | nil => simp at h
  | cons p rest ih =>
      by_cases hk : k = p.1
      · simp [dictInsert, hk]
      · simp only [List.map_cons, List.mem_cons] at h
        rcases h with h | h
        · exact absurd h hk
        · simp [dictInsert, hk, ih h]

/-! ### Fat Tree Hierarchy (`src/core/fat_tree_hierarchy.py`)

Node ids in the source are the Python strings `f"core_{i}"`, `f"agg_{i}"`,
`f"edge_{i}"`.  These strings are in bijection with the pairs
(layer prefix, decimal index); the embedding represents them by the
inductive type `NodeId`, whose constructor/index pairs correspond exactly to
those strings (distinct prefixes, distinct decimal indices). -/

inductive NodeId where
  | core (i : ℕ)
  | agg (i : ℕ)
  | edge (i : ℕ)
deriving DecidableEq

/-- The Python string for a node id (`f"core_{i}"` and so on). -/
def NodeId.str : NodeId → String
  | NodeId.core i => "core_" ++ Nat.repr i
  | NodeId.agg i => "agg_" ++ Nat.repr i
  | NodeId.edge i => "edge_" ++ Nat.repr i

inductive Layer where
  | core
  | aggregation
  | edge
deriving DecidableEq

/-- Node quantum states are the `np.random.rand(4, 4)` matrices. -/
abbrev Mat : Type := Matrix (Fin 4) (Fin 4) ℝ

/-- The `Node` dataclass: `ethical_constraints` is the one-entry dict
`{"fidelity_threshold": x}`, modelled by its optional threshold value. -/
structure Node where
  id : NodeId
  layer : Layer
  position : ℕ × ℕ
  quantum_state : Option Mat
  ethical_constraints : Option ℝ

structure FatTreeHierarchy where
  core_nodes : ℤ
  aggregation_nodes : ℤ
  edge_nodes : ℤ
  nodes : List (NodeId × Node)
  edges : List (NodeId × NodeId)

/-- Python `range(n)` for an `int` argument: empty when `n ≤ 0`. -/
def pyRange (n : ℤ) : List ℕ := List.range n.toNat

/-- Translation of `_build_hierarchy` and `_create_edges`: three layers of nodes keyed by
their ids, each with a random 4×4 state (`rand` is the stream of
`np.random.rand(4, 4)` draws) and the layer's fidelity threshold, plus the
full bipartite core–aggregation and aggregation–edge edge lists. -/
def buildHierarchy (c a e : ℤ) (rand : NodeId → Mat) : FatTreeHierarchy :=
  let corePairs := (pyRange c).map fun i =>
    (NodeId.core i, Node.mk (NodeId.core i) Layer.core (0, i)
      (some (rand (NodeId.core i))) (some 0.95))
  let aggPairs := (pyRange a).map fun i =>
    (NodeId.agg i, Node.mk (NodeId.agg i) Layer.aggregation (1, i)
      (some (rand (NodeId.agg i))) (some 0.90))
  let edgePairs := (pyRange e).map fun i =>
    (NodeId.edge i, Node.mk (NodeId.edge i) Layer.edge (2, i)
      (some (rand (NodeId.edge i))) (some 0.85))
  let nodes := insertAll (corePairs ++ aggPairs ++ edgePairs) []
  let coreIds := (pyRange c).map NodeId.core
  let aggIds := (pyRange a).map NodeId.agg
  let edgeIds := (pyRange e).map NodeId.edge
  let edges := coreIds.flatMap (fun cid => aggIds.map fun aid => (cid, aid)) ++
    aggIds.flatMap (fun aid => edgeIds.map fun eid => (aid, eid))
  ⟨c, a, e, nodes, edges⟩

theorem buildHierarchy_nodes_eq (c a e : ℤ) (rand : NodeId → Mat) :
    (buildHierarchy c a e rand).nodes =
      ((pyRange c).map fun i =>
        (NodeId.core i, Node.mk (NodeId.core i) Layer.core (0, i)
          (some (rand (NodeId.core i))) (some 0.95))) ++
      ((pyRange a).map fun i =>
        (NodeId.agg i, Node.mk (NodeId.agg i) Layer.aggregation (1, i)
          (some (rand (NodeId.agg i))) (some 0.90))) ++
      ((pyRange e).map fun i =>
        (NodeId.edge i, Node.mk (NodeId.edge i) Layer.edge (2, i)
          (some (rand (NodeId.edge i))) (some 0.85))) := by
  have hinj_core : Function.Injective NodeId.core := by
    intro x y h; cases h; rfl
  have hinj_agg : Function.Injective NodeId.agg := by
    intro x y h; cases h; rfl
  have hinj_edge : Function.Injective NodeId.edge := by
    intro x y h; cases h; rfl
  unfold buildHierarchy
  simp only []
  rw [insertAll_of_nodup]
  · simp [List.append_assoc]
  · simp only [List.nil_append, List.map_append, List.map_map]
    have hc : ((pyRange c).map fun i => NodeId.core i).Nodup := by
      exact (List.nodup_range _).map hinj_core
    have ha : ((pyRange a).map fun i => NodeId.agg i).Nodup := by
      exact (List.nodup_range _).map hinj_agg
    have he : ((pyRange e).map fun i => NodeId.edge i).Nodup := by
      exact (List.nodup_range _).map hinj_edge
    rw [List.nodup_append, List.nodup_append]
    refine ⟨⟨by simpa using hc, by simpa using ha, ?_⟩,
      by simpa using he, ?_⟩
    · intro x hx hy
      simp only [List.mem_map, Function.comp] at hx hy
      obtain ⟨i, _, hi⟩ := hx
      obtain ⟨j, _, hj⟩ := hy
      subst hi
      exact absurd hj (by simp)
    · intro x hx hy
      simp only [List.mem_append, List.mem_map, Function.comp] at hx hy
      obtain ⟨j, _, hj⟩ := hy
      rcases hx with ⟨i, _, hi⟩ | ⟨i, _, hi⟩ <;>
        (subst hi; exact absurd hj (by simp))

/-- Claim C1. For all non-negative counts `core, agg, edge`, building the
hierarchy produces exactly `core + agg + edge` nodes (the node-id strings
are pairwise distinct, so the dict inserts never collide) and exactly
`core*agg + agg*edge` edges — the full bipartite edge sets between the
core–aggregation and aggregation–edge layers. -/
theorem hierarchy_node_and_edge_counts (core agg edge : ℕ)
    (rand : NodeId → Mat) :
    (buildHierarchy (core : ℤ) (agg : ℤ) (edge : ℤ) rand).nodes.length =
        core + agg + edge ∧
    (buildHierarchy (core : ℤ) (agg : ℤ) (edge : ℤ) rand).edges.length =
        core * agg + agg * edge := by
  constructor
  · rw [buildHierarchy_nodes_eq]
    simp [pyRange]
    omega
  · unfold buildHierarchy
    simp only [List.length_append]
    have hcount : ∀ (l₁ : List ℕ) (f : ℕ → NodeId) (l₂ : List NodeId),
        ((l₁.map f).flatMap fun x => l₂.map fun y => (x, y)).length =
          l₁.length * l₂.length := by
      intro l₁ f l₂
      induction l₁ with
      | nil => simp
      | cons x rest ih =>
          -- each source node contributes one edge per target node
          simp only [List.map_cons, List.flatMap_cons, List.length_append,
            List.length_map, List.length_cons, ih]
          ring
    rw [hcount, hcount]
    simp [pyRange, Nat.mul_comm]

/-! ### Pairwise scorer (`FatTreeHierarchy._calculate_sync_fidelity`) -/

/-- Translation of `np.clip(x, 0.0, 1.0)` on a (non-NaN) float. -/
def clip01 (x : ℝ) : ℝ := min (max x 0) 1

/-- Squared Frobenius norm of a 4×4 state (`np.linalg.norm` squares). -/
def frobNormSq (A : Mat) : ℝ := ∑ i, ∑ j, A i j ^ 2

/-- Translation of `np.linalg.norm(A)` for a 2-D array: the Frobenius norm. -/
def frobNorm (A : Mat) : ℝ := Real.sqrt (frobNormSq A)

/-- Translation of `_calculate_sync_fidelity(node1, node2)` applied to the two nodes'
quantum states.  Returns `0.0` when either state is `None`.  When both are
present the source computes
`np.abs(np.trace(A @ B.T)) / (norm(A) * norm(B))` and clips to `[0, 1]`
with **no** zero-norm guard: when `norm(A) * norm(B) == 0` the zero matrix
makes the overlap `0` as well, so the float division is `0/0 = NaN`, and
`np.clip(NaN, 0, 1) = NaN`; that NaN outcome is modelled by `none`. -/
def calcSyncFidelity (s1 s2 : Option Mat) : Option ℝ :=
  match s1, s2 with
  | none, _ => some 0
  | _, none => some 0
  | some A, some B =>
      if frobNorm A * frobNorm B = 0 then none
      else some (clip01 (|Matrix.trace (A * B.transpose)| / (frobNorm A * frobNorm B)))

theorem frobNorm_zero : frobNorm (0 : Mat) = 0 := by
  simp [frobNorm, frobNormSq]

theorem frobNormSq_one : frobNormSq (1 : Mat) = 4 := by
  simp [frobNormSq, Fin.sum_univ_four, Matrix.one_apply]

theorem frobNorm_one : frobNorm (1 : Mat) = 2 := by
  rw [frobNorm, frobNormSq_one, show (4 : ℝ) = 2 ^ 2 by norm_num,
    Real.sqrt_sq (by norm_num : (0 : ℝ) ≤ 2)]

/-- Claim C3, counterexample. The claim says that whenever either operand's
Frobenius norm is `0` the fidelity is `0`.  On the code, with both operands
present and the first being the zero matrix, the division `0/0` is reached
(there is no zero-norm guard) and the result is NaN (`none`), not `0`. -/
theorem edge_fidelity_zero_norm_not_zero :
    calcSyncFidelity (some (0 : Mat)) (some (1 : Mat)) = none ∧
      (none : Option ℝ) ≠ some 0 := by
  constructor
  · rw [calcSyncFidelity]
    rw [if_pos (by rw [frobNorm_zero]; ring)]
  · simp

/-- Claim C3, amended. `edge_fidelity` returns `0` when either operand is
absent; when both operands are present and either Frobenius norm is `0`
the code divides `0` by `0` and returns NaN (it does not return `0`);
otherwise it returns `|trace(A·Bᵗ)| / (‖A‖_F · ‖B‖_F)` clipped to `[0,1]`. -/
theorem edge_fidelity_cases :
    (∀ s₂ : Option Mat, calcSyncFidelity none s₂ = some 0) ∧
    (∀ s₁ : Option Mat, calcSyncFidelity s₁ none = some 0) ∧
    (∀ A B : Mat, frobNorm A * frobNorm B = 0 →
      calcSyncFidelity (some A) (some B) = none) ∧
    (∀ A B : Mat, frobNorm A ≠ 0 → frobNorm B ≠ 0 →
      calcSyncFidelity (some A) (some B) =
        some (clip01 (|Matrix.trace (A * B.transpose)| / (frobNorm A * frobNorm B)))) := by
  refine ⟨fun s₂ => by cases s₂ <;> rfl, fun s₁ => ?_, fun A B h => ?_, fun A B hA hB => ?_⟩
  · cases s₁ <;> rfl
  · rw [calcSyncFidelity, if_pos h]
  · rw [calcSyncFidelity, if_neg (mul_ne_zero hA hB)]

/-- Witness for C3: concrete instances discharging each hypothesis — the
zero/identity pair hits the NaN branch, the identity/identity pair the
regular quotient branch. -/
theorem edge_fidelity_cases_witness :
    calcSyncFidelity (some (0 : Mat)) (some (1 : Mat)) = none ∧
    calcSyncFidelity (some (1 : Mat)) (some (1 : Mat)) =
      some (clip01 (|Matrix.trace ((1 : Mat) * (1 : Mat).transpose)| /
        (frobNorm 1 * frobNorm 1))) := by
  constructor
  · exact edge_fidelity_cases.2.2.1 0 1 (by rw [frobNorm_zero]; ring)
  · exact edge_fidelity_cases.2.2.2 1 1
      (by rw [frobNorm_one]; norm_num) (by rw [frobNorm_one]; norm_num)

/-- Claim C7. `edge_fidelity` is symmetric in its two operands: the overlap
satisfies `trace(A·Bᵗ) = trace(B·Aᵗ)` and the norm product commutes, and
the `None`/NaN guards are symmetric as well. -/
theorem edge_fidelity_symm (s₁ s₂ : Option Mat) :
    calcSyncFidelity s₁ s₂ = calcSyncFidelity s₂ s₁ := by
  cases s₁ with
  | none => cases s₂ <;> rfl
  | some A =>
      cases s₂ with
      | none => rfl
      | some B =>
          have htr : Matrix.trace (A * B.transpose) = Matrix.trace (B * A.transpose) := by
            have : (B * A.transpose).transpose = A * B.transpose := by
              rw [Matrix.transpose_mul, Matrix.transpose_transpose]
            rw [← this, Matrix.trace_transpose]
          rw [calcSyncFidelity, calcSyncFidelity]
          rw [htr, mul_comm (frobNorm A) (frobNorm B)]

/-! ### SPC Framework registry (`src/core/spc_framework.py`)

Registered wavefunctions are numpy arrays (1-D vectors, or node matrices
that every operation applied to them — `np.linalg.norm`, `np.outer`,
`np.vdot` — flattens); the embedding represents them as flattened complex
vectors. -/

abbrev CVec := List ℂ

/-- Sum of the squared moduli of the entries (the square of
`np.linalg.norm`). -/
def cnormSq (v : CVec) : ℝ := (v.map Complex.normSq).sum

/-- Translation of `np.linalg.norm(v)` (Euclidean / Frobenius, flattening). -/
def cnorm (v : CVec) : ℝ := Real.sqrt (cnormSq v)

/-- Translation of `v / np.linalg.norm(v)`: `none` models the all-NaN array produced by
the float division when the norm is exactly zero. -/
def normalize (v : CVec) : Option CVec :=
  if cnorm v = 0 then none else some (v.map fun z => z / (cnorm v : ℂ))

/-- Elementwise numpy addition of two same-shape arrays. -/
def vadd (a b : CVec) : CVec := List.zipWith (· + ·) a b

/-- Translation of `np.vdot(a, b)`, which conjugates the first argument and flattens both. -/
def cvdot (a b : CVec) : ℂ := (List.zipWith (fun x y => star x * y) a b).sum

/-- Translation of `np.outer(v, v.conj())`: the rank-one density matrix `ρ_{ij} = v_i v̄_j`
as a row-major list matrix. -/
def couterConj (v : CVec) : List (List ℂ) :=
  v.map fun a => v.map fun b => a * star b

/-- Dot product of two complex rows. -/
def dotc (a b : CVec) : ℂ := (List.zipWith (· * ·) a b).sum

/-- Transpose of a rectangular list matrix. -/
def mtranspose : List (List ℂ) → List (List ℂ)
  | [] => []
  | [r] => r.map fun a => [a]
  | r :: rs => List.zipWith (fun a col => a :: col) r (mtranspose rs)

/-- Matrix product `A @ B` on list matrices. -/
def cmatMul (A B : List (List ℂ)) : List (List ℂ) :=
  A.map fun row => (mtranspose B).map fun col => dotc row col

/-- Trace of a square list matrix (`np.trace`). -/
def ctraceAux : ℕ → List (List ℂ) → ℂ
  | _, [] => 0
  | i, r :: rs => r.getD i 0 + ctraceAux (i + 1) rs

def ctrace (A : List (List ℂ)) : ℂ := ctraceAux 0 A

/-- Translation of the registry `_calculate_coherence(w)`: the purity
`np.real(np.trace(ρ @ ρ))` of the outer-product density `ρ = outer(w, w̄)`. -/
def calcCoherence (w : CVec) : ℝ :=
  (ctrace (cmatMul (couterConj w) (couterConj w))).re

/-- The float literal `1e-10`. -/
def eps10 : ℝ := 1 / 10 ^ 10

/-- Translation of `np.real(np.linalg.eigvals(np.outer(u, u.conj())))`: the rank-one
Hermitian matrix `outer(u, conj u)` has the exact spectrum `{‖u‖²}`
together with `n-1` zeros; the embedding uses that mathematical value
directly (the LAPACK iteration has no closed-form translation, and on
exact-real input its finiteness check passes). -/
def eigvalsOuter (u : CVec) : List ℝ :=
  cnormSq u :: List.replicate (u.length - 1) 0

/-- Translation of `_calculate_entanglement_entropy(w)` with the `np.random.normal` noise
draw `ε` passed explicitly (it has the wavefunction's shape).  When the
perturbed vector has zero norm its renormalization is all-NaN and
`np.linalg.eigvals` raises `LinAlgError` (numpy's finiteness assertion);
otherwise the eigenvalues above the `1e-10` cutoff feed the
`-∑ lam * log2(lam + 1e-10)` sum. -/
def calcEntEntropy (w ε : CVec) : Except PyErr ℝ :=
  match normalize (vadd w ε) with
  | none => Except.error PyErr.linAlgError
  | some nu =>
      let eigs := (eigvalsOuter nu).filter fun lam => decide (eps10 < lam)
      Except.ok (-((eigs.map fun lam => lam * Real.logb 2 (lam + eps10)).sum))

/-- A consciousness-field array.  `FieldVal.vec f` is a genuine float
array; `FieldVal.nan n` is the all-NaN array of `n` entries produced when
`_initialize_consciousness_field` (or `update_consciousness_field`)
divides an exactly-zero draw by its zero norm.  The two are kept apart
from Python `None` (the `Option` layer around this type): the `is None`
branches of the source are dead after `__init__`, while the NaN field is
reachable and behaves differently (`np.vdot` against it yields NaN, not a
default). -/
inductive FieldVal where
  | nan (n : ℕ)
  | vec (f : CVec)

/-- Translation of `_calculate_ethical_fidelity(w)`: `1.0` when the consciousness field is
`None`; otherwise `np.abs(np.vdot(w, field.flatten()))` over
`‖w‖ · ‖field‖`, clipped.  `np.vdot` raises `ValueError` on a size
mismatch.  Against the all-NaN field the overlap, the denominator and the
clipped quotient are all NaN (`none`).  Against a genuine field a zero
denominator forces a zero overlap as well, so the float quotient is
`0/0 = NaN` (`none`). -/
def calcEthicalFidelity (w : CVec) (field : Option FieldVal) :
    Except PyErr (Option ℝ) :=
  match field with
  | none => Except.ok (some 1)
  | some (FieldVal.nan n) =>
      if w.length ≠ n then Except.error PyErr.valueError
      else Except.ok none
  | some (FieldVal.vec f) =>
      if w.length ≠ f.length then Except.error PyErr.valueError
      else if cnorm w * cnorm f = 0 then Except.ok none
      else Except.ok
        (some (clip01 (Complex.abs (cvdot w f) / (cnorm w * cnorm f))))

/-- The `QuantumState` dataclass.  A stored wavefunction is always an exactly
renormalized vector (creation raises before storing otherwise);
`ethical_fidelity` is `none` when the float computation produced NaN. -/
structure QuantumState where
  wavefunction : CVec
  coherence : ℝ
  entanglement_entropy : ℝ
  ethical_fidelity : Option ℝ

structure EthicalConstraint where
  name : String
  threshold : ℝ
  weight : ℝ
  description : String

structure SPCFramework where
  dimension : ℤ
  quantum_states : List (String × QuantumState)
  ethical_constraints : List EthicalConstraint
  consciousness_field : Option FieldVal

/-- Translation of the default-constraint initializer. -/
def defaultConstraints : List EthicalConstraint :=
  [{ name := "fidelity_threshold", threshold := 0.95, weight := 1.0,
     description := "Minimum quantum state fidelity" },
   { name := "coherence_threshold", threshold := 0.90, weight := 0.8,
     description := "Minimum quantum coherence" },
   { name := "entanglement_bound", threshold := 0.85, weight := 0.7,
     description := "Maximum entanglement entropy" }]

/-- The field stored by `_initialize_consciousness_field`: the draw
divided by its norm.  A nonzero-norm draw gives a genuine normalized
vector; an exactly-zero *nonempty* draw gives the all-NaN array (`0/0`
per entry); the empty `d = 0` draw divides a zero-size array by `0.0`,
which stays the empty array (there is no entry to turn into NaN). -/
def mkField (draw : CVec) : FieldVal :=
  match normalize draw with
  | some f => FieldVal.vec f
  | none =>
      if draw.length = 0 then FieldVal.vec [] else FieldVal.nan draw.length

/-- Translation of `SPCFramework.__init__(dimension)` with the `np.random.rand(d, d)` draw
passed explicitly (flattened, `d*d` entries).  `np.random.rand` raises
`ValueError` for a negative dimension; no other validation exists.  The
consciousness field is always assigned (the dataclass-level `None` is
dead after construction); an exactly-zero draw leaves it all-NaN. -/
def mkSPCFramework (d : ℤ) (draw : CVec) : Except PyErr SPCFramework :=
  if d < 0 then Except.error PyErr.valueError
  else Except.ok ⟨d, [], defaultConstraints, some (mkField draw)⟩

/-- Translation of `create_quantum_state(state_id, wavefunction)` with the entropy noise
draw `ε` explicit.  A zero-norm input makes the renormalized array
all-NaN: `_calculate_coherence` silently computes a NaN trace, but
`np.linalg.eigvals` inside `_calculate_entanglement_entropy` then raises
`LinAlgError`, before the record assignment — so nothing is stored. -/
def createQuantumState (fw : SPCFramework) (state_id : String) (w : CVec)
    (ε : CVec) : Except PyErr (SPCFramework × QuantumState) :=
  match normalize w with
  | none => Except.error PyErr.linAlgError
  | some u =>
      match calcEntEntropy u ε with
      | Except.error err => Except.error err
      | Except.ok entropy =>
          match calcEthicalFidelity u fw.consciousness_field with
          | Except.error err => Except.error err
          | Except.ok fidelity =>
              let qs : QuantumState := ⟨u, calcCoherence u, entropy, fidelity⟩
              Except.ok
                ({ fw with quantum_states :=
                    dictInsert state_id qs fw.quantum_states }, qs)

/-- Translation of `np.eye(n)` as a list matrix. -/
def eye (n : ℕ) : List (List ℂ) :=
  (List.range n).map fun i => (List.range n).map fun j =>
    if i = j then 1 else 0

def msmul (c : ℂ) (A : List (List ℂ)) : List (List ℂ) :=
  A.map fun r => r.map fun x => c * x

def msub (A B : List (List ℂ)) : List (List ℂ) :=
  List.zipWith (fun ra rb => List.zipWith (· - ·) ra rb) A B

/-- Translation of `np.linalg.matrix_power(A, n)` (the exact matrix power). -/
def cmatPow (A : List (List ℂ)) : ℕ → List (List ℂ)
  | 0 => eye A.length
  | n + 1 => cmatMul A (cmatPow A n)

/-- Matrix–vector product `A @ v`. -/
def cmatVec (A : List (List ℂ)) (v : CVec) : CVec := A.map fun r => dotc r v

/-- Translation of `evolve_quantum_state(state_id, hamiltonian, time)` with the entropy
noise draw `ε` explicit.  Unknown ids raise the source's explicit
`ValueError`; incompatible array shapes raise numpy's `ValueError`.  The
evolved vector is renormalized; a zero-norm evolved vector gives the
all-NaN array whose entropy eigvals raise `LinAlgError` before the record
is overwritten.  The model covers 1-D wavefunctions of length `dimension`
(a matrix-shaped record evolves by the same matmul-then-renormalize steps,
which no claim distinguishes). -/
def evolveQuantumState (fw : SPCFramework) (state_id : String)
    (hamiltonian : List (List ℂ)) (t : ℝ) (ε : CVec) :
    Except PyErr (SPCFramework × QuantumState) :=
  match dictFind state_id fw.quantum_states with
  | none => Except.error PyErr.valueError
  | some qs =>
      if hamiltonian.length == fw.dimension.toNat &&
          hamiltonian.all (fun r => r.length == fw.dimension.toNat) &&
          qs.wavefunction.length == fw.dimension.toNat then
        match normalize (cmatVec (cmatPow
            (msub (eye fw.dimension.toNat)
              (msmul (Complex.I * ((t : ℂ) / 1000)) hamiltonian)) 1000)
          qs.wavefunction) with
        | none => Except.error PyErr.linAlgError
        | some u =>
            match calcEntEntropy u ε with
            | Except.error err => Except.error err
            | Except.ok entropy =>
                match calcEthicalFidelity u fw.consciousness_field with
                | Except.error err => Except.error err
                | Except.ok fidelity =>
                    let qs' : QuantumState :=
                      ⟨u, calcCoherence u, entropy, fidelity⟩
                    Except.ok
                      ({ fw with quantum_states :=
                          dictInsert state_id qs' fw.quantum_states }, qs')
      else Except.error PyErr.valueError

/-- Python float `<` against a possibly-NaN (`none`) left operand: every
comparison with NaN is `False`. -/
def pyLt (x : Option ℝ) (y : ℝ) : Bool :=
  match x with
  | none => false
  | some a => decide (a < y)

/-- Translation of `apply_ethical_constraints(state_id)`: `False` for an unknown id,
otherwise every named constraint must hold (`fidelity_threshold` and
`coherence_threshold` are lower bounds, `entanglement_bound` an upper
bound); the early `return False` of the loop equals the conjunction. -/
def applyEthicalConstraints (fw : SPCFramework) (state_id : String) : Bool :=
  match dictFind state_id fw.quantum_states with
  | none => false
  | some qs =>
      fw.ethical_constraints.all fun c =>
        if c.name == "fidelity_threshold" then
          !(pyLt qs.ethical_fidelity c.threshold)
        else if c.name == "coherence_threshold" then
          !(decide (qs.coherence < c.threshold))
        else if c.name == "entanglement_bound" then
          !(decide (c.threshold < qs.entanglement_entropy))
        else true

/-- Translation of `get_consciousness_integration(state_id)`:
`np.clip(np.abs(np.vdot(w, field.flatten())), 0, 1)`; `0.0` for an unknown
id or a `None` field; `np.vdot` raises `ValueError` on a size mismatch.
Against the all-NaN field the `vdot` is NaN and `np.clip(NaN, 0, 1)` is
NaN (`none`). -/
def consIntegration (fw : SPCFramework) (state_id : String) :
    Except PyErr (Option ℝ) :=
  match dictFind state_id fw.quantum_states, fw.consciousness_field with
  | none, _ => Except.ok (some 0)
  | some _, none => Except.ok (some 0)
  | some qs, some (FieldVal.nan n) =>
      if qs.wavefunction.length ≠ n then Except.error PyErr.valueError
      else Except.ok none
  | some qs, some (FieldVal.vec f) =>
      if qs.wavefunction.length ≠ f.length then Except.error PyErr.valueError
      else Except.ok (some (clip01 (Complex.abs (cvdot qs.wavefunction f))))

/-! ### Layer synchronization (`FatTreeHierarchy.synchronize_layers`) -/

/-- The float accumulation `total_fidelity += fidelity`: a NaN term
(`none`) contaminates the whole sum. -/
def optSum : List (Option ℝ) → Option ℝ
  | [] => some 0
  | x :: xs =>
      match x with
      | none => none
      | some a =>
          match optSum xs with
          | none => none
          | some b => some (a + b)

/-- The loop body of `synchronize_layers`: look both endpoints up in the
node dict (`KeyError` when absent) and score the edge. -/
def edgeFidelity (nodes : List (NodeId × Node)) (e : NodeId × NodeId) :
    Except PyErr (Option ℝ) :=
  match dictGet nodes e.1 with
  | Except.error err => Except.error err
  | Except.ok n1 =>
      match dictGet nodes e.2 with
      | Except.error err => Except.error err
      | Except.ok n2 =>
          Except.ok (calcSyncFidelity n1.quantum_state n2.quantum_state)

/-- Translation of `synchronize_layers()`: the mean of `_calculate_sync_fidelity` over all
edges, `0.0` for an empty edge list (`edge_count == 0` guard).  Each edge
lookup `self.nodes[edge[i]]` raises `KeyError` when the endpoint is
missing from the node dict; a NaN fidelity propagates through sum and
mean. -/
def synchronizeLayers (h : FatTreeHierarchy) : Except PyErr (Option ℝ) :=
  match h.edges.mapM (edgeFidelity h.nodes) with
  | Except.error err => Except.error err
  | Except.ok fids =>
      Except.ok (if h.edges.isEmpty then some 0
        else (optSum fids).map fun tot => tot / (h.edges.length : ℝ))

/-! ### System architecture (`src/core/system_architecture.py`) -/

structure SystemArchitecture where
  fat_tree : FatTreeHierarchy
  spc_framework : SPCFramework

/-- Translation of `SystemArchitecture.__init__`: the fat tree is built first (its
constructor has no failing path), then the SPC framework, whose
construction raises for a negative dimension.  The `system_state`
bookkeeping dict holds presentation-only metrics that no claim reads and
is not modelled. -/
def mkSystemArchitecture (c a e d : ℤ) (rand : NodeId → Mat) (draw : CVec) :
    Except PyErr SystemArchitecture := do
  let ft := buildHierarchy c a e rand
  let fw ← mkSPCFramework d draw
  Except.ok ⟨ft, fw⟩

/-- Row-major flattening of a 4×4 node state, as `np.linalg.norm`,
`np.outer` and `np.vdot` flatten their array arguments. -/
def flattenMat (m : Mat) : CVec :=
  (List.finRange 4).flatMap fun i =>
    (List.finRange 4).map fun j => ((m i j : ℝ) : ℂ)

/-- The registration loop of `initialize_system`: every node whose state is
not `None` is registered under the node's id string; an exception aborts
the loop, leaving the earlier registrations in place.  `εd` supplies the
per-call entropy noise draws. -/
def registerNodes (εd : NodeId → CVec) :
    SPCFramework → List (NodeId × Node) → SPCFramework × Option PyErr
  | fw, [] => (fw, none)
  | fw, (nid, nd) :: rest =>
      match nd.quantum_state with
      | none => registerNodes εd fw rest
      | some m =>
          match createQuantumState fw nid.str (flattenMat m) (εd nid) with
          | Except.error err => (fw, some err)
          | Except.ok (fw', _) => registerNodes εd fw' rest

/-- The body of `initialize_system`'s `try:` block: register every node,
then compute the synchronization fidelity (whose node lookups can raise
`KeyError` on a malformed hierarchy).  `optimize_resource_allocation` runs
last; on the model's exact-real states `np.linalg.eigvals` receives finite
input and raises nothing, and its utilities feed only the unmodelled
`system_state` dict, so it contributes no observable effect. -/
def initBody (s : SystemArchitecture) (εd : NodeId → CVec) :
    SystemArchitecture × Option PyErr :=
  match registerNodes εd s.spc_framework s.fat_tree.nodes with
  | (fw', some err) => ({ s with spc_framework := fw' }, some err)
  | (fw', none) =>
      match synchronizeLayers s.fat_tree with
      | Except.error err => ({ s with spc_framework := fw' }, some err)
      | Except.ok _ => ({ s with spc_framework := fw' }, none)

/-- Translation of `initialize_system()`: the catch-all `except Exception` turns any
internal exception into a printed message and a `False` return; on success
it returns `True`.  No exception ever escapes to the caller. -/
def initializeSystem (s : SystemArchitecture) (εd : NodeId → CVec) :
    SystemArchitecture × Bool :=
  match initBody s εd with
  | (s', some _) => (s', false)
  | (s', none) => (s', true)

/-- The `ethical_scores` list of `synchronize_system`: one `1.0`/`0.0`
entry per registered state id. -/
def ethicalScores (fw : SPCFramework) : List ℝ :=
  fw.quantum_states.map fun p =>
    if applyEthicalConstraints fw p.1 then 1 else 0

/-- Translation of `sum(scores) / len(scores) if scores else 0.0`. -/
def pyMean (scores : List ℝ) : ℝ :=
  if scores.isEmpty then 0 else scores.sum / (scores.length : ℝ)

/-- The `consciousness_scores` list of `synchronize_system`; an entry is
`none` when the integration against the all-NaN field produced NaN. -/
def consScores (fw : SPCFramework) : Except PyErr (List (Option ℝ)) :=
  fw.quantum_states.mapM fun p => consIntegration fw p.1

/-- Translation of `sum(scores) / len(scores) if scores else 0.0` over a
score list that may contain NaN entries: any NaN contaminates the sum and
the mean. -/
def pyMeanOpt (scores : List (Option ℝ)) : Option ℝ :=
  if scores.isEmpty then some 0
  else (optSum scores).map fun tot => tot / (scores.length : ℝ)

/-- Translation of `synchronize_system()`: the tree synchronization fidelity, the mean
ethical compliance and the mean consciousness integration, combined as
their unweighted average `(tree + eth + cons) / 3`.  The tree term can be
NaN (zero-norm node states) and the consciousness term can be NaN (the
all-NaN field); either makes the result NaN.  The ethical mean is an
ordinary real (`apply_ethical_constraints` returns booleans even for
NaN-scored records: comparisons with NaN are simply `False`).  The
`system_state` updates are presentation-only bookkeeping. -/
def synchronizeSystem (s : SystemArchitecture) : Except PyErr (Option ℝ) :=
  match synchronizeLayers s.fat_tree with
  | Except.error err => Except.error err
  | Except.ok treeSync =>
      match consScores s.spc_framework with
      | Except.error err => Except.error err
      | Except.ok cons =>
          Except.ok
            (match treeSync with
             | none => none
             | some t =>
                 match pyMeanOpt cons with
                 | none => none
                 | some c => some
                     ((t + pyMean (ethicalScores s.spc_framework) + c) / 3))

/-! ### Norm and normalization lemmas -/

theorem cnormSq_nil : cnormSq [] = 0 := rfl

theorem cnormSq_cons (z : ℂ) (v : CVec) :
    cnormSq (z :: v) = Complex.normSq z + cnormSq v := rfl

theorem cnormSq_nonneg (v : CVec) : 0 ≤ cnormSq v := by
  induction v with
  | nil => simp [cnormSq_nil]
  | cons z vs ih => rw [cnormSq_cons]; exact add_nonneg (Complex.normSq_nonneg z) ih

theorem cnormSq_map_div (v : CVec) (c : ℝ) :
    cnormSq (v.map fun z => z / (c : ℂ)) = cnormSq v / c ^ 2 := by
  induction v with
  | nil => simp [cnormSq_nil]
  | cons z vs ih =>
      rw [List.map_cons, cnormSq_cons, cnormSq_cons, ih, add_div]
      congr 1
      rw [Complex.normSq_div, Complex.normSq_ofReal]
      ring_nf

theorem cnormSq_of_normalize {v u : CVec} (h : normalize v = some u) :
    cnormSq u = 1 := by
  rw [normalize] at h
  by_cases hc : cnorm v = 0
  · simp [hc] at h
  · rw [if_neg hc] at h
    have hu : u = v.map fun z => z / (cnorm v : ℂ) := by
      exact (Option.some.injEq _ _ ▸ h).symm
    have hsq : cnorm v ^ 2 = cnormSq v := Real.sq_sqrt (cnormSq_nonneg v)
    have hnz : cnormSq v ≠ 0 := by
      intro h0
      exact hc (by rw [cnorm, h0, Real.sqrt_zero])
    rw [hu, cnormSq_map_div, hsq, div_self hnz]

theorem cnorm_of_normalize {v u : CVec} (h : normalize v = some u) :
    cnorm u = 1 := by
  rw [cnorm, cnormSq_of_normalize h, Real.sqrt_one]

/-! ### Entropy lemmas -/

theorem filter_replicate_zero (k : ℕ) :
    (List.replicate k (0 : ℝ)).filter (fun lam => decide (eps10 < lam)) =
      [] := by
  induction k with
  | zero => rfl
  | succ n ih =>
      rw [List.replicate_succ, List.filter_cons]
      rw [decide_eq_false (by norm_num [eps10] : ¬ eps10 < (0 : ℝ))]
      simpa using ih

theorem logb_two_one_add_eps10_pos : 0 < Real.logb 2 (1 + eps10) :=
  Real.logb_pos (by norm_num) (by norm_num [eps10])

/-- Whenever `_calculate_entanglement_entropy` returns (instead of raising),
it returns exactly `-(1 * log2(1 + 1e-10))`: the perturbed, renormalized
state is a unit vector, the only eigenvalue above the cutoff is `1`, and
the `+ 1e-10` inside the logarithm shifts the pure-state entropy from `0`
to a strictly negative value. -/
theorem calcEntEntropy_ok {w ε : CVec} {r : ℝ}
    (h : calcEntEntropy w ε = Except.ok r) :
    r = -(1 * Real.logb 2 (1 + eps10)) := by
  rw [calcEntEntropy] at h
  split at h
  · cases h
  · rename_i nu hnu
    have h1 : cnormSq nu = 1 := cnormSq_of_normalize hnu
    simp only [Except.ok.injEq] at h
    rw [← h, eigvalsOuter, h1, List.filter_cons,
      decide_eq_true (by norm_num [eps10] : eps10 < (1 : ℝ)),
      filter_replicate_zero]
    simp

theorem calcEntEntropy_ok_neg {w ε : CVec} {r : ℝ}
    (h : calcEntEntropy w ε = Except.ok r) : r < 0 := by
  rw [calcEntEntropy_ok h, one_mul, neg_lt_zero]
  exact logb_two_one_add_eps10_pos

/-! ### Claim C2: registering a zero vector -/

/-- The id strings used by the concrete examples. -/
def idA : String := "a"

/-- A framework as produced by `SPCFramework.__init__` before any
registration; the consciousness field is taken as Python `None` so that
`_calculate_ethical_fidelity`'s `None`-guard branch is exercised. -/
def fwA : SPCFramework := ⟨1, [], defaultConstraints, none⟩

def wZero : CVec := [0, 0, 0, 0]

theorem cnorm_wZero : cnorm wZero = 0 := by
  rw [cnorm]
  have : cnormSq wZero = 0 := by
    simp [wZero, cnormSq_cons, cnormSq_nil]
  rw [this, Real.sqrt_zero]

/-- Shared helper: a zero-norm input makes `create_quantum_state` raise
`LinAlgError` (the NaN array reaches `np.linalg.eigvals`). -/
theorem createQuantumState_zero_norm_error (fw : SPCFramework)
    (state_id : String) (w ε : CVec) (h : cnorm w = 0) :
    createQuantumState fw state_id w ε = Except.error PyErr.linAlgError := by
  rw [createQuantumState, normalize, if_pos h]

/-- Claim C2, amended: `register(id, v)` with an exactly zero-norm `v`
raises `numpy.linalg.LinAlgError` — the float renormalization produces an
all-NaN array and `np.linalg.eigvals` inside the entropy computation
rejects it — before the record assignment, so nothing is stored for that
id.  There is no `DegenerateInputError` class anywhere in the code; the
zero vector is still not silently defaulted. -/
theorem register_zero_vector_raises (fw : SPCFramework) (state_id : String)
    (w ε : CVec) (h : cnorm w = 0) :
    createQuantumState fw state_id w ε = Except.error PyErr.linAlgError :=
  createQuantumState_zero_norm_error fw state_id w ε h

/-- Witness for the amended C2 at the concrete zero vector. -/
theorem register_zero_vector_raises_witness :
    cnorm wZero = 0 ∧
    createQuantumState fwA idA wZero wZero = Except.error PyErr.linAlgError :=
  ⟨cnorm_wZero, register_zero_vector_raises fwA idA wZero wZero cnorm_wZero⟩

/-- Claim C2, counterexample. As literally stated the claim is false: the
exception raised for a zero vector is `numpy.linalg.LinAlgError`, not a
`DegenerateInputError` (no such class exists in the code). -/
theorem register_zero_vector_not_degenerate_error :
    createQuantumState fwA idA wZero wZero = Except.error PyErr.linAlgError ∧
    PyErr.linAlgError ≠ PyErr.degenerateInputError := by
  refine ⟨?_, by decide⟩
  rw [createQuantumState, normalize, if_pos cnorm_wZero]

/-! ### Claim C4: stored wavefunctions are unit vectors -/

/-- Success characterization of `create_quantum_state`: a successful call
is exactly a normalizable input whose entropy and fidelity computations
both return, and it stores the resulting record under the id. -/
theorem createQuantumState_eq_ok {fw : SPCFramework} {state_id : String}
    {w ε : CVec} {fw' : SPCFramework} {qs : QuantumState} :
    createQuantumState fw state_id w ε = Except.ok (fw', qs) ↔
    ∃ u entropy fidelity,
      normalize w = some u ∧
      calcEntEntropy u ε = Except.ok entropy ∧
      calcEthicalFidelity u fw.consciousness_field = Except.ok fidelity ∧
      qs = ⟨u, calcCoherence u, entropy, fidelity⟩ ∧
      fw' = { fw with quantum_states := dictInsert state_id qs fw.quantum_states } := by
  constructor
  · intro h
    rw [createQuantumState] at h
    split at h
    · cases h
    · rename_i u hn
      split at h
      · cases h
      · rename_i entropy he
        split at h
        · cases h
        · rename_i fidelity hf
          simp only [Except.ok.injEq, Prod.mk.injEq] at h
          obtain ⟨h1, h2⟩ := h
          exact ⟨u, entropy, fidelity, hn, he, hf, h2.symm,
            by rw [← h1, ← h2]⟩
  · rintro ⟨u, entropy, fidelity, hn, he, hf, hqs, hfw⟩
    subst hqs
    subst hfw
    rw [createQuantumState]
    simp only [hn, he, hf]

/-- Success characterization of `evolve_quantum_state`. -/
theorem evolveQuantumState_eq_ok {fw : SPCFramework} {state_id : String}
    {H : List (List ℂ)} {t : ℝ} {ε : CVec} {fw' : SPCFramework}
    {qs : QuantumState} :
    evolveQuantumState fw state_id H t ε = Except.ok (fw', qs) ↔
    ∃ qs0 u entropy fidelity,
      dictFind state_id fw.quantum_states = some qs0 ∧
      (H.length == fw.dimension.toNat &&
        H.all (fun r => r.length == fw.dimension.toNat) &&
        qs0.wavefunction.length == fw.dimension.toNat) = true ∧
      normalize (cmatVec (cmatPow (msub (eye fw.dimension.toNat)
          (msmul (Complex.I * ((t : ℂ) / 1000)) H)) 1000)
        qs0.wavefunction) = some u ∧
      calcEntEntropy u ε = Except.ok entropy ∧
      calcEthicalFidelity u fw.consciousness_field = Except.ok fidelity ∧
      qs = ⟨u, calcCoherence u, entropy, fidelity⟩ ∧
      fw' = { fw with quantum_states := dictInsert state_id qs fw.quantum_states } := by
  constructor
  · intro h
    rw [evolveQuantumState] at h
    split at h
    · cases h
    · rename_i qs0 hd
      split at h
      · rename_i hg
        split at h
        · cases h
        · rename_i u hn
          split at h
          · cases h
          · rename_i entropy he
            split at h
            · cases h
            · rename_i fidelity hf
              simp only [Except.ok.injEq, Prod.mk.injEq] at h
              obtain ⟨h1, h2⟩ := h
              exact ⟨qs0, u, entropy, fidelity, hd, hg, hn, he, hf, h2.symm,
                by rw [← h1, ← h2]⟩
      · cases h
  · rintro ⟨qs0, u, entropy, fidelity, hd, hg, hn, he, hf, hqs, hfw⟩
    subst hqs
    subst hfw
    rw [evolveQuantumState]
    simp only [hd, hg, hn, he, hf, if_true]

/-- Claim C4. Every record stored in the registry holds a unit-norm
wavefunction: whenever `create_quantum_state` or `evolve_quantum_state`
returns successfully (exactly the runs that store or overwrite a record),
the stored wavefunction has Euclidean norm exactly `1` (in exact real
arithmetic; within floating tolerance on floats), regardless of the norm
of the caller-supplied vector — zero-norm inputs never store anything
because the call raises first. -/
theorem stored_wavefunction_unit_norm :
    (∀ (fw : SPCFramework) (state_id : String) (w ε : CVec)
        (fw' : SPCFramework) (qs : QuantumState),
        createQuantumState fw state_id w ε = Except.ok (fw', qs) →
        cnorm qs.wavefunction = 1) ∧
    (∀ (fw : SPCFramework) (state_id : String) (H : List (List ℂ)) (t : ℝ)
        (ε : CVec) (fw' : SPCFramework) (qs : QuantumState),
        evolveQuantumState fw state_id H t ε = Except.ok (fw', qs) →
        cnorm qs.wavefunction = 1) := by
  constructor
  · intro fw state_id w ε fw' qs h
    obtain ⟨u, entropy, fidelity, hn, _, _, hqs, _⟩ :=
      createQuantumState_eq_ok.mp h
    rw [hqs]
    exact cnorm_of_normalize hn
  · intro fw state_id H t ε fw' qs h
    obtain ⟨qs0, u, entropy, fidelity, _, _, hn, _, _, hqs, _⟩ :=
      evolveQuantumState_eq_ok.mp h
    rw [hqs]
    exact cnorm_of_normalize hn

/-! ### Concrete evaluation of a registration and an evolution step -/

theorem cnormSq_one_single : cnormSq [(1 : ℂ)] = 1 := by
  simp [cnormSq_cons, cnormSq_nil]

theorem cnorm_one_single : cnorm [(1 : ℂ)] = 1 := by
  rw [cnorm, cnormSq_one_single, Real.sqrt_one]

theorem normalize_one : normalize [(1 : ℂ)] = some [1] := by
  rw [normalize, if_neg (by rw [cnorm_one_single]; norm_num)]
  simp [cnorm_one_single]

/-- The entropy value stored for every record: minus `log2(1 + 1e-10)`. -/
def entA : ℝ := -(1 * Real.logb 2 (1 + eps10))

/-- The record created by registering `[1]` (field `None`). -/
def qsA : QuantumState := ⟨[1], calcCoherence [1], entA, some 1⟩

/-- A dimension-1 framework holding one record under `sid`, field `None`. -/
def fwReg (sid : String) : SPCFramework :=
  ⟨1, [(sid, qsA)], defaultConstraints, none⟩

theorem entropyA : calcEntEntropy [(1 : ℂ)] [(0 : ℂ)] = Except.ok entA := by
  have hv : vadd [(1 : ℂ)] [(0 : ℂ)] = [1] := by
    simp [vadd]
  rw [calcEntEntropy]
  simp only [hv, normalize_one]
  rw [eigvalsOuter, cnormSq_one_single]
  simp only [List.length_cons, List.length_nil, Nat.sub_self,
    List.replicate_zero, List.filter_cons, List.filter_nil,
    decide_eq_true (by norm_num [eps10] : eps10 < (1 : ℝ))]
  simp [entA]

theorem create_one_eval (fw0 : SPCFramework) (sid : String)
    (hfield : fw0.consciousness_field = none) :
    createQuantumState fw0 sid [1] [0] =
      Except.ok ({ fw0 with
        quantum_states := dictInsert sid qsA fw0.quantum_states }, qsA) :=
  createQuantumState_eq_ok.mpr
    ⟨[1], entA, some 1, normalize_one, entropyA, by rw [hfield]; rfl, rfl, rfl⟩

theorem msmul_zero_mat (c : ℂ) : msmul c [[0]] = [[0]] := by
  simp [msmul]

theorem range_one_eq : List.range 1 = [0] := rfl

theorem msub_eye_one : msub (eye 1) [[(0 : ℂ)]] = [[1]] := by
  simp [msub, eye, range_one_eq]

theorem cmatPow_one : ∀ n, cmatPow [[(1 : ℂ)]] n = [[1]] := by
  intro n
  induction n with
  | zero => simp [cmatPow, eye, range_one_eq]
  | succ k ih => rw [cmatPow, ih]; simp [cmatMul, mtranspose, dotc]

theorem cmatVec_one : cmatVec [[(1 : ℂ)]] [1] = [1] := by
  simp [cmatVec, dotc]

theorem evolve_one_eval (sid : String) :
    evolveQuantumState (fwReg sid) sid [[0]] 0 [0] =
      Except.ok ({ fwReg sid with
        quantum_states := dictInsert sid qsA (fwReg sid).quantum_states },
        qsA) := by
  apply evolveQuantumState_eq_ok.mpr
  refine ⟨qsA, [1], entA, some 1, ?_, ?_, ?_, entropyA, rfl, rfl, rfl⟩
  · simp [fwReg, dictFind]
  · simp [fwReg, qsA]
  · have h1 : msmul (Complex.I * (((0 : ℝ) : ℂ) / 1000)) [[0]] = [[0]] :=
      msmul_zero_mat _
    show normalize (cmatVec (cmatPow (msub (eye (fwReg sid).dimension.toNat)
        (msmul (Complex.I * (((0 : ℝ) : ℂ) / 1000)) [[0]])) 1000)
      qsA.wavefunction) = some [1]
    have hd : (fwReg sid).dimension.toNat = 1 := rfl
    rw [hd, h1, msub_eye_one, cmatPow_one,
      show qsA.wavefunction = [1] from rfl, cmatVec_one, normalize_one]

/-- Witness for C4 at concrete inputs: registering the already-unit vector
`[1]` in a fresh dimension-1 framework succeeds, evolving it under the zero
Hamiltonian succeeds, and the stored wavefunction is a unit vector. -/
theorem stored_wavefunction_unit_norm_witness :
    createQuantumState fwA idA [1] [0] =
      Except.ok ({ fwA with
        quantum_states := dictInsert idA qsA fwA.quantum_states }, qsA) ∧
    evolveQuantumState (fwReg idA) idA [[0]] 0 [0] =
      Except.ok ({ fwReg idA with
        quantum_states := dictInsert idA qsA (fwReg idA).quantum_states },
        qsA) ∧
    cnorm qsA.wavefunction = 1 :=
  ⟨create_one_eval fwA idA rfl, evolve_one_eval idA,
    stored_wavefunction_unit_norm.2 (fwReg idA) idA [[0]] 0 [0] _ qsA
      (evolve_one_eval idA)⟩

/-! ### Claim C8: the stored entanglement score is never ≥ 0 -/

/-- Claim C8. The claim asserts the stored entanglement score is `≥ 0`.  In
fact, for every record created by `register` or updated by `evolve` and
for **every** value of the random perturbation, the stored score is
strictly negative: the renormalized perturbed state is a unit vector, its
density matrix has the single above-cutoff eigenvalue `1`, and the code
computes `-(1 * log2(1 + 1e-10)) ≈ -1.44e-10 < 0` — the `+ 1e-10` shift
inside the logarithm makes the "von Neumann entropy" negative. -/
theorem stored_entanglement_entropy_negative :
    (∀ (fw : SPCFramework) (state_id : String) (w ε : CVec)
        (fw' : SPCFramework) (qs : QuantumState),
        createQuantumState fw state_id w ε = Except.ok (fw', qs) →
        qs.entanglement_entropy < 0) ∧
    (∀ (fw : SPCFramework) (state_id : String) (H : List (List ℂ)) (t : ℝ)
        (ε : CVec) (fw' : SPCFramework) (qs : QuantumState),
        evolveQuantumState fw state_id H t ε = Except.ok (fw', qs) →
        qs.entanglement_entropy < 0) := by
  constructor
  · intro fw state_id w ε fw' qs h
    obtain ⟨u, entropy, fidelity, _, he, _, hqs, _⟩ :=
      createQuantumState_eq_ok.mp h
    rw [hqs]
    exact calcEntEntropy_ok_neg he
  · intro fw state_id H t ε fw' qs h
    obtain ⟨qs0, u, entropy, fidelity, _, _, _, he, _, hqs, _⟩ :=
      evolveQuantumState_eq_ok.mp h
    rw [hqs]
    exact calcEntEntropy_ok_neg he

def idB : String := "b"

/-- Witness for C8: the concrete registration of `[1]` under id `"b"`
succeeds and stores a strictly negative entanglement score. -/
theorem stored_entanglement_entropy_negative_witness :
    createQuantumState fwA idB [1] [0] =
      Except.ok ({ fwA with
        quantum_states := dictInsert idB qsA fwA.quantum_states }, qsA) ∧
    qsA.entanglement_entropy < 0 :=
  ⟨create_one_eval fwA idB rfl,
    stored_entanglement_entropy_negative.1 fwA idB [1] [0] _ qsA
      (create_one_eval fwA idB rfl)⟩

/-! ### Claim C10: re-registering an existing id overwrites in place -/

/-- The `isOk` observation on a Python call result. -/
def isOkE {α : Type} : Except PyErr α → Bool
  | Except.ok _ => true
  | Except.error _ => false

/-- Claim C10. Registering a state under an id already present in the
registry overwrites the existing record in place and raises no error
because of the duplication: after a successful call the registry maps the
id to the newly computed record, the record count is unchanged when the id
was already present, and whether the call raises at all does not depend on
the registry contents. -/
theorem register_overwrites_in_place :
    (∀ (fw : SPCFramework) (state_id : String) (w ε : CVec)
        (fw' : SPCFramework) (qs : QuantumState),
        createQuantumState fw state_id w ε = Except.ok (fw', qs) →
        dictFind state_id fw'.quantum_states = some qs ∧
        (state_id ∈ fw.quantum_states.map Prod.fst →
          fw'.quantum_states.length = fw.quantum_states.length)) ∧
    (∀ (fw : SPCFramework) (reg : List (String × QuantumState))
        (state_id : String) (w ε : CVec),
        isOkE (createQuantumState
          { fw with quantum_states := reg } state_id w ε) =
        isOkE (createQuantumState fw state_id w ε)) := by
  constructor
  · intro fw state_id w ε fw' qs h
    obtain ⟨u, entropy, fidelity, _, _, _, _, hfw⟩ :=
      createQuantumState_eq_ok.mp h
    rw [hfw]
    exact ⟨dictFind_dictInsert_self state_id qs fw.quantum_states,
      fun hmem => length_dictInsert_of_mem qs hmem⟩
  · intro fw reg state_id w ε
    rw [createQuantumState, createQuantumState]
    cases hn : normalize w with
    | none => rfl
    | some u =>
        simp only []
        cases he : calcEntEntropy u ε with
        | error err => rfl
        | ok entropy =>
            simp only []
            cases hf : calcEthicalFidelity u fw.consciousness_field with
            | error err => rfl
            | ok fidelity => rfl

def idD : String := "d0"

/-- A pre-existing record (arbitrary contents) for the C10 witness. -/
def qsOld : QuantumState := ⟨[1], 0, 0, none⟩

def fwOld : SPCFramework := ⟨1, [(idD, qsOld)], defaultConstraints, none⟩

/-- Witness for C10: re-registering id `"d0"`, which is already present,
succeeds, maps the id to the new record and keeps the registry size at 1. -/
theorem register_overwrites_in_place_witness :
    createQuantumState fwOld idD [1] [0] =
      Except.ok ({ fwOld with
        quantum_states := dictInsert idD qsA fwOld.quantum_states }, qsA) ∧
    dictFind idD (dictInsert idD qsA fwOld.quantum_states) = some qsA ∧
    (dictInsert idD qsA fwOld.quantum_states).length =
      fwOld.quantum_states.length ∧
    isOkE (createQuantumState
      { fwOld with quantum_states := [] } idD [1] [0]) =
      isOkE (createQuantumState fwOld idD [1] [0]) := by
  have h := create_one_eval fwOld idD rfl
  have hmem : idD ∈ fwOld.quantum_states.map Prod.fst := by
    simp [fwOld]
  obtain ⟨h1, h2⟩ := register_overwrites_in_place.1 fwOld idD [1] [0] _ qsA h
  exact ⟨h, h1, h2 hmem, register_overwrites_in_place.2 fwOld [] idD [1] [0]⟩

/-! ### Claim C9: constructor validation -/

/-- Claim C9, counterexample. The claim says a negative node count or a
non-positive dimension raises `ConfigurationError` at construction.  In
fact no validation exists: constructing with `core_nodes = -1` succeeds
(the `range` over a negative count is simply empty), and so does
constructing with `quantum_dimension = 0`. -/
theorem construction_accepts_invalid_config :
    isOkE (mkSystemArchitecture (-1) 8 16 4 (fun _ => 1) [1]) = true ∧
    isOkE (mkSystemArchitecture 4 8 16 0 (fun _ => 1) []) = true := by
  constructor <;> rfl

/-- Claim C9, amended. Construction performs no validation: every node-count
triple (negative counts included — they yield empty layers) and every
non-negative dimension is accepted without error; only a negative
dimension raises, and what it raises is `np.random.rand`'s `ValueError`,
not a `ConfigurationError` (which exists nowhere in the code). -/
theorem construction_validation (c a e d : ℤ) (rand : NodeId → Mat)
    (draw : CVec) :
    (0 ≤ d → isOkE (mkSystemArchitecture c a e d rand draw) = true) ∧
    (d < 0 → mkSystemArchitecture c a e d rand draw =
      Except.error PyErr.valueError) := by
  constructor
  · intro hd
    rw [mkSystemArchitecture, mkSPCFramework, if_neg (not_lt.mpr hd)]
    rfl
  · intro hd
    rw [mkSystemArchitecture, mkSPCFramework, if_pos hd]
    rfl

/-- Witness for the amended C9: dimension `4` is accepted (even with a
negative core count), dimension `-1` raises `ValueError`. -/
theorem construction_validation_witness :
    isOkE (mkSystemArchitecture (-1) 8 16 4 (fun _ => 1) [1]) = true ∧
    mkSystemArchitecture 4 8 16 (-1) (fun _ => 1) [1] =
      Except.error PyErr.valueError :=
  ⟨(construction_validation (-1) 8 16 4 (fun _ => 1) [1]).1 (by norm_num),
   (construction_validation 4 8 16 (-1) (fun _ => 1) [1]).2 (by norm_num)⟩

/-! ### Claim C6: what `initialize_system` does with internal exceptions -/

theorem cnormSq_append (a b : CVec) :
    cnormSq (a ++ b) = cnormSq a + cnormSq b := by
  induction a with
  | nil => simp [cnormSq_nil]
  | cons z rest ih => simp [cnormSq_cons, ih]; ring

theorem cnormSq_flatMap {α : Type} (l : List α) (f : α → CVec) :
    cnormSq (l.flatMap f) = (l.map fun x => cnormSq (f x)).sum := by
  induction l with
  | nil => simp [cnormSq_nil]
  | cons x rest ih => simp [List.flatMap_cons, cnormSq_append, ih]

theorem cnormSq_map_ofReal {α : Type} (l : List α) (g : α → ℝ) :
    cnormSq (l.map fun x => ((g x : ℝ) : ℂ)) =
      (l.map fun x => g x ^ 2).sum := by
  induction l with
  | nil => simp [cnormSq_nil]
  | cons x rest ih =>
      simp only [List.map_cons, cnormSq_cons, List.sum_cons, ih,
        Complex.normSq_ofReal]
      ring_nf

/-- Flattening preserves the (squared) norm: `np.linalg.norm` of a node's
4×4 state equals the norm of its flattening. -/
theorem cnormSq_flattenMat (m : Mat) :
    cnormSq (flattenMat m) = frobNormSq m := by
  rw [flattenMat, cnormSq_flatMap, frobNormSq, Fin.sum_univ_def]
  simp only [cnormSq_map_ofReal, Fin.sum_univ_def]

theorem cnorm_flattenMat (m : Mat) : cnorm (flattenMat m) = frobNorm m := by
  rw [cnorm, cnormSq_flattenMat, frobNorm]

/-- If any node carries a zero-norm state, the registration loop aborts
with an exception (`np.linalg.eigvals` rejecting the NaN array). -/
theorem registerNodes_error_of_zero (εd : NodeId → CVec) :
    ∀ (nodes : List (NodeId × Node)) (fw : SPCFramework),
      (∃ p ∈ nodes, ∃ m, p.2.quantum_state = some m ∧ frobNorm m = 0) →
      (registerNodes εd fw nodes).2 ≠ none := by
  intro nodes
  induction nodes with
  | nil =>
      rintro fw ⟨p, hp, _⟩
      simp at hp
  | cons q rest ih =>
      rintro fw ⟨p, hp, m, hm, hz⟩
      rcases q with ⟨nid, nd⟩
      cases hqs : nd.quantum_state with
      | none =>
          rcases List.mem_cons.mp hp with hpe | hpr
          · subst hpe
            rw [hm] at hqs
            cases hqs
          · have := ih fw ⟨p, hpr, m, hm, hz⟩
            simpa [registerNodes, hqs] using this
      | some m0 =>
          cases hc : createQuantumState fw nid.str (flattenMat m0) (εd nid)
            with
          | error err => simp [registerNodes, hqs, hc]
          | ok pr =>
              obtain ⟨fw2, qs2⟩ := pr
              rcases List.mem_cons.mp hp with hpe | hpr
              · subst hpe
                simp only at hm
                rw [hm] at hqs
                have hm0 : m = m0 := by
                  exact (Option.some.injEq _ _ ▸ hqs)
                have : createQuantumState fw nid.str (flattenMat m0)
                    (εd nid) = Except.error PyErr.linAlgError := by
                  apply createQuantumState_zero_norm_error
                  rw [cnorm_flattenMat, ← hm0, hz]
                rw [this] at hc
                cases hc
              · have := ih fw2 ⟨p, hpr, m, hm, hz⟩
                simpa [registerNodes, hqs, hc] using this

/-- Claim C6, amended. `initialize_system` never propagates an exception: its
catch-all handler turns any internal exception into a `False` return (it
returns `True` exactly when the body raised nothing), and in particular a
zero-norm ("zero-vector") node makes it return `False` — the
`LinAlgError` raised while registering that node is caught, not
re-raised; there is no `DegenerateInputError` anywhere. -/
theorem init_catches_all_exceptions :
    (∀ (s : SystemArchitecture) (εd : NodeId → CVec),
      (initializeSystem s εd).2 = (initBody s εd).2.isNone) ∧
    (∀ (s : SystemArchitecture) (εd : NodeId → CVec)
        (nid : NodeId) (nd : Node) (m : Mat),
      (nid, nd) ∈ s.fat_tree.nodes → nd.quantum_state = some m →
      frobNorm m = 0 → (initializeSystem s εd).2 = false) := by
  have h1 : ∀ (s : SystemArchitecture) (εd : NodeId → CVec),
      (initializeSystem s εd).2 = (initBody s εd).2.isNone := by
    intro s εd
    rcases h : initBody s εd with ⟨s', oe⟩
    cases oe <;> simp [initializeSystem, h]
  refine ⟨h1, ?_⟩
  intro s εd nid nd m hmem hqs hz
  have hreg : (registerNodes εd s.spc_framework s.fat_tree.nodes).2 ≠
      none :=
    registerNodes_error_of_zero εd _ _ ⟨(nid, nd), hmem, m, hqs, hz⟩
  rw [h1]
  rcases hr : registerNodes εd s.spc_framework s.fat_tree.nodes with
    ⟨fw', oe⟩
  rw [hr] at hreg
  cases oe with
  | none => exact absurd rfl hreg
  | some err => simp [initBody, hr]

def rand0 : NodeId → Mat := fun _ => 0

def fwSys : SPCFramework := ⟨4, [], defaultConstraints, none⟩

/-- One core node carrying the all-zero state (the zero draw is in the
support of `np.random.rand`), no other nodes. -/
def sysZero : SystemArchitecture := ⟨buildHierarchy 1 0 0 rand0, fwSys⟩

def εNil : NodeId → CVec := fun _ => []

theorem sysZero_nodes :
    sysZero.fat_tree.nodes =
      [(NodeId.core 0, Node.mk (NodeId.core 0) Layer.core (0, 0)
        (some 0) (some 0.95))] := by
  show (buildHierarchy 1 0 0 rand0).nodes = _
  rw [buildHierarchy_nodes_eq]
  simp [pyRange, rand0, range_one_eq]

/-- Claim C6, counterexample. On the concrete system whose single node holds
the zero state, registering that node raises `LinAlgError` inside the
`try:` body — and `initialize_system` returns `False` normally instead of
propagating the exception to the caller, contradicting the claim that the
error is "propagated, not swallowed" and never caught internally. -/
theorem init_swallows_internal_exception :
    (initBody sysZero εNil).2 = some PyErr.linAlgError ∧
    (initializeSystem sysZero εNil).2 = false := by
  have hc : createQuantumState sysZero.spc_framework (NodeId.core 0).str
      (flattenMat 0) (εNil (NodeId.core 0)) =
      Except.error PyErr.linAlgError := by
    apply createQuantumState_zero_norm_error
    rw [cnorm_flattenMat, frobNorm_zero]
  have hreg : registerNodes εNil sysZero.spc_framework
      sysZero.fat_tree.nodes =
      (sysZero.spc_framework, some PyErr.linAlgError) := by
    rw [sysZero_nodes]
    simp [registerNodes, hc]
  constructor
  · simp [initBody, hreg]
  · simp [initializeSystem, initBody, hreg]

/-- Witness for the amended C6 at the same concrete system. -/
theorem init_catches_all_exceptions_witness :
    (initializeSystem sysZero εNil).2 = (initBody sysZero εNil).2.isNone ∧
    (initializeSystem sysZero εNil).2 = false := by
  refine ⟨init_catches_all_exceptions.1 sysZero εNil, ?_⟩
  apply init_catches_all_exceptions.2 sysZero εNil (NodeId.core 0)
    (Node.mk (NodeId.core 0) Layer.core (0, 0) (some 0) (some 0.95)) 0
  · rw [sysZero_nodes]; simp
  · rfl
  · exact frobNorm_zero

/-! ### Claim C5: what `synchronize_system` returns -/

theorem clip01_nonneg (x : ℝ) : 0 ≤ clip01 x :=
  le_min (le_max_right x 0) zero_le_one

theorem clip01_le_one (x : ℝ) : clip01 x ≤ 1 := min_le_right _ _

theorem calcSyncFidelity_none_left (s : Option Mat) :
    calcSyncFidelity none s = some 0 := by
  cases s <;> rfl

theorem calcSyncFidelity_none_right (s : Option Mat) :
    calcSyncFidelity s none = some 0 := by
  cases s <;> rfl

theorem dictFind_mem [DecidableEq K] {k : K} {v : V} :
    ∀ {l : List (K × V)}, dictFind k l = some v → (k, v) ∈ l := by
  intro l
  induction l with
  | nil => intro h; cases h
  | cons p rest ih =>
      intro h
      rw [dictFind] at h
      by_cases hk : k = p.1
      · rw [if_pos hk] at h
        have : v = p.2 := (Option.some.injEq _ _ ▸ h).symm
        subst hk
        rw [this]
        simp
      · rw [if_neg hk] at h
        exact List.mem_cons_of_mem _ (ih h)

/-- A `mapM` over `Except` whose steps all succeed with values satisfying
`P` succeeds with a same-length list of values satisfying `P`. -/
theorem mapM_ok_of_forall {α β : Type} (f : α → Except PyErr β)
    (P : β → Prop) :
    ∀ l : List α, (∀ x ∈ l, ∃ r, f x = Except.ok r ∧ P r) →
      ∃ rs, l.mapM f = Except.ok rs ∧ rs.length = l.length ∧
        ∀ r ∈ rs, P r := by
  intro l
  induction l with
  | nil => intro _; exact ⟨[], by rw [List.mapM_nil]; rfl, rfl, by simp⟩
  | cons x rest ih =>
      intro h
      obtain ⟨r, hr, hPr⟩ := h x (by simp)
      obtain ⟨rs, hrs, hlen, hall⟩ := ih fun y hy => h y (by simp [hy])
      refine ⟨r :: rs, ?_, by simp [hlen], ?_⟩
      · rw [List.mapM_cons, hr]
        show (Except.ok r >>= fun r => rest.mapM f >>=
          fun rs => pure (r :: rs)) = _
        rw [show ∀ (a : β) (g : β → Except PyErr (List β)),
            Except.ok a >>= g = g a from fun _ _ => rfl]
        rw [show rest.mapM f >>= (fun rs => pure (r :: rs)) =
            Except.ok (r :: rs) by rw [hrs]; rfl]
      · intro y hy
        rcases List.mem_cons.mp hy with hye | hyr
        · rw [hye]; exact hPr
        · exact hall y hyr

theorem list_sum_bounds :
    ∀ l : List ℝ, (∀ x ∈ l, 0 ≤ x ∧ x ≤ 1) →
      0 ≤ l.sum ∧ l.sum ≤ l.length := by
  intro l
  induction l with
  | nil => intro _; simp
  | cons x rest ih =>
      intro h
      obtain ⟨hx0, hx1⟩ := h x (by simp)
      obtain ⟨h0, h1⟩ := ih fun y hy => h y (by simp [hy])
      constructor
      · simp only [List.sum_cons]
        linarith
      · simp only [List.sum_cons, List.length_cons]
        push_cast
        linarith

theorem pyMean_bounds {l : List ℝ} (h : ∀ x ∈ l, 0 ≤ x ∧ x ≤ 1) :
    0 ≤ pyMean l ∧ pyMean l ≤ 1 := by
  obtain ⟨h0, h1⟩ := list_sum_bounds l h
  rw [pyMean]
  cases l with
  | nil => norm_num
  | cons x rest =>
      rw [if_neg (by simp)]
      have hpos : (0 : ℝ) < ((x :: rest).length : ℝ) := by
        simp only [List.length_cons]
        push_cast
        positivity
      exact ⟨div_nonneg h0 hpos.le, (div_le_one hpos).mpr h1⟩

theorem optSum_of_forall :
    ∀ fids : List (Option ℝ),
      (∀ v ∈ fids, ∃ r, v = some r ∧ 0 ≤ r ∧ r ≤ 1) →
      ∃ tot, optSum fids = some tot ∧ 0 ≤ tot ∧ tot ≤ fids.length := by
  intro fids
  induction fids with
  | nil => intro _; exact ⟨0, rfl, le_refl 0, by simp⟩
  | cons v rest ih =>
      intro h
      obtain ⟨r, hv, hr0, hr1⟩ := h v (by simp)
      obtain ⟨tot, htot, h0, h1⟩ := ih fun y hy => h y (by simp [hy])
      subst hv
      refine ⟨r + tot, ?_, by linarith, ?_⟩
      · simp only [optSum, htot]
      · simp only [List.length_cons]
        push_cast
        linarith

/-- Under well-formed lookups and nonzero state norms, the layer
synchronization succeeds with a value in `[0, 1]`. -/
theorem synchronizeLayers_ok (h : FatTreeHierarchy)
    (hedges : ∀ e ∈ h.edges,
      (dictFind e.1 h.nodes).isSome = true ∧
      (dictFind e.2 h.nodes).isSome = true)
    (hstates : ∀ p ∈ h.nodes, ∀ m : Mat,
      p.2.quantum_state = some m → frobNorm m ≠ 0) :
    ∃ t, synchronizeLayers h = Except.ok (some t) ∧ 0 ≤ t ∧ t ≤ 1 := by
  have hpoint : ∀ e ∈ h.edges, ∃ v, edgeFidelity h.nodes e = Except.ok v ∧
      ∃ r, v = some r ∧ 0 ≤ r ∧ r ≤ 1 := by
    intro e he
    obtain ⟨h1, h2⟩ := hedges e he
    obtain ⟨n1, hn1⟩ := Option.isSome_iff_exists.mp h1
    obtain ⟨n2, hn2⟩ := Option.isSome_iff_exists.mp h2
    refine ⟨calcSyncFidelity n1.quantum_state n2.quantum_state, ?_, ?_⟩
    · simp only [edgeFidelity, dictGet, hn1, hn2]
    · cases hq1 : n1.quantum_state with
      | none =>
          exact ⟨0, calcSyncFidelity_none_left _, le_refl 0, zero_le_one⟩
      | some A =>
          cases hq2 : n2.quantum_state with
          | none =>
              exact ⟨0, calcSyncFidelity_none_right _, le_refl 0,
                zero_le_one⟩
          | some B =>
              have hA : frobNorm A ≠ 0 :=
                hstates _ (dictFind_mem hn1) A hq1
              have hB : frobNorm B ≠ 0 :=
                hstates _ (dictFind_mem hn2) B hq2
              rw [calcSyncFidelity, if_neg (mul_ne_zero hA hB)]
              exact ⟨_, rfl, clip01_nonneg _, clip01_le_one _⟩
  obtain ⟨fids, hmap, hlen, hall⟩ :=
    mapM_ok_of_forall (edgeFidelity h.nodes) _ h.edges hpoint
  cases hE : h.edges with
  | nil =>
      refine ⟨0, ?_, le_refl 0, zero_le_one⟩
      rw [hE] at hmap
      simp only [synchronizeLayers, hE, hmap, List.isEmpty_nil, if_true]
  | cons e rest =>
      obtain ⟨tot, htot, h0, h1⟩ := optSum_of_forall fids hall
      refine ⟨tot / (h.edges.length : ℝ), ?_, ?_, ?_⟩
      · simp only [synchronizeLayers, hmap]
        rw [if_neg (by rw [hE]; simp), htot]
        rfl
      · have : (0 : ℝ) ≤ (h.edges.length : ℝ) := by positivity
        exact div_nonneg h0 this
      · have hpos : (0 : ℝ) < (h.edges.length : ℝ) := by
          rw [hE]
          simp only [List.length_cons]
          push_cast
          positivity
        apply (div_le_one hpos).mpr
        rw [← hlen]
        exact h1

/-- A consciousness field that is either Python `None` (the dead
pre-construction state) or a genuine (non-NaN) vector whose length every
record matches.  This is exactly what the `[0,1]` bound needs: the
reachable all-NaN field (zero draw) is **not** admitted, because against
it `get_consciousness_integration` returns NaN. -/
def GoodField (fw : SPCFramework) : Prop :=
  fw.consciousness_field = none ∨
    ∃ f, fw.consciousness_field = some (FieldVal.vec f) ∧
      ∀ q ∈ fw.quantum_states, q.2.wavefunction.length = f.length

/-- Under a good field, the consciousness-score loop succeeds with non-NaN
values in `[0, 1]`. -/
theorem consScores_ok (fw : SPCFramework) (hfld : GoodField fw) :
    ∃ cons, consScores fw = Except.ok cons ∧
      ∀ v ∈ cons, ∃ r, v = some r ∧ 0 ≤ r ∧ r ≤ 1 := by
  have hpoint : ∀ p ∈ fw.quantum_states,
      ∃ v, consIntegration fw p.1 = Except.ok v ∧
        ∃ r, v = some r ∧ 0 ≤ r ∧ r ≤ 1 := by
    intro p hp
    cases hf : dictFind p.1 fw.quantum_states with
    | none =>
        refine ⟨some 0, ?_, 0, rfl, le_refl 0, zero_le_one⟩
        simp only [consIntegration, hf]
    | some qs =>
        rcases hfld with hn | ⟨f, hv, hlen⟩
        · refine ⟨some 0, ?_, 0, rfl, le_refl 0, zero_le_one⟩
          simp only [consIntegration, hf, hn]
        · have heq : qs.wavefunction.length = f.length :=
            hlen _ (dictFind_mem hf)
          refine ⟨some (clip01 (Complex.abs (cvdot qs.wavefunction f))), ?_,
            clip01 (Complex.abs (cvdot qs.wavefunction f)), rfl,
            clip01_nonneg _, clip01_le_one _⟩
          simp only [consIntegration, hf, hv]
          rw [if_neg (not_not_intro heq)]
  obtain ⟨cons, hmap, _, hall⟩ :=
    mapM_ok_of_forall (fun p => consIntegration fw p.1) _
      fw.quantum_states hpoint
  exact ⟨cons, hmap, hall⟩

/-- The NaN-aware mean of non-NaN scores in `[0, 1]` is a non-NaN value in
`[0, 1]`. -/
theorem pyMeanOpt_ok {cons : List (Option ℝ)}
    (h : ∀ v ∈ cons, ∃ r, v = some r ∧ 0 ≤ r ∧ r ≤ 1) :
    ∃ c, pyMeanOpt cons = some c ∧ 0 ≤ c ∧ c ≤ 1 := by
  by_cases hC : cons.isEmpty = true
  · refine ⟨0, ?_, le_refl 0, zero_le_one⟩
    rw [pyMeanOpt, if_pos hC]
  · obtain ⟨tot, htot, h0, h1⟩ := optSum_of_forall cons h
    have hne : cons ≠ [] := by
      intro hnil
      rw [hnil] at hC
      exact hC rfl
    have hpos : (0 : ℝ) < (cons.length : ℝ) := by
      have := List.length_pos.mpr hne
      exact_mod_cast this
    refine ⟨tot / (cons.length : ℝ), ?_, div_nonneg h0 hpos.le,
      (div_le_one hpos).mpr h1⟩
    rw [pyMeanOpt, if_neg hC, htot]
    rfl

theorem ethicalScores_bounds (fw : SPCFramework) :
    ∀ x ∈ ethicalScores fw, 0 ≤ x ∧ x ≤ 1 := by
  intro x hx
  rw [ethicalScores] at hx
  obtain ⟨p, _, hp⟩ := List.mem_map.mp hx
  rcases Bool.eq_false_or_eq_true (applyEthicalConstraints fw p.1) with
    hb | hb <;> rw [hb] at hp <;> simp at hp <;> subst hp <;> norm_num

/-- Claim C5, amended. `synchronize_system` returns the unweighted average
`(tree sync + mean constraint pass rate + mean alignment) / 3`, with a
component whose underlying collection is empty contributing `0` rather
than being skipped; the returned value lies in `[0, 1]` **provided**
every present node state has nonzero Frobenius norm, edge endpoints
resolve, and the consciousness field is a genuine (non-NaN) vector whose
length every record matches (`GoodField`).  Without the proviso the
return value is NaN: a zero-norm node state makes the tree term `0/0`,
and an all-zero field draw — reachable through `__init__` — makes every
consciousness integration `clip(NaN) = NaN` even when all node states
have nonzero norm; see the counterexample for both paths. -/
theorem synchronize_mean_and_range (s : SystemArchitecture) (t c : ℝ)
    (cons : List (Option ℝ))
    (ht : synchronizeLayers s.fat_tree = Except.ok (some t))
    (hc : consScores s.spc_framework = Except.ok cons)
    (hm : pyMeanOpt cons = some c)
    (hedges : ∀ e ∈ s.fat_tree.edges,
      (dictFind e.1 s.fat_tree.nodes).isSome = true ∧
      (dictFind e.2 s.fat_tree.nodes).isSome = true)
    (hstates : ∀ p ∈ s.fat_tree.nodes, ∀ m : Mat,
      p.2.quantum_state = some m → frobNorm m ≠ 0)
    (hfld : GoodField s.spc_framework) :
    synchronizeSystem s = Except.ok (some
      ((t + pyMean (ethicalScores s.spc_framework) + c) / 3)) ∧
    0 ≤ (t + pyMean (ethicalScores s.spc_framework) + c) / 3 ∧
    (t + pyMean (ethicalScores s.spc_framework) + c) / 3 ≤ 1 ∧
    (s.fat_tree.edges = [] → t = 0) ∧
    (s.spc_framework.quantum_states = [] →
      pyMean (ethicalScores s.spc_framework) = 0 ∧ c = 0) := by
  obtain ⟨t0, ht0, ht00, ht01⟩ :=
    synchronizeLayers_ok s.fat_tree hedges hstates
  have htt : t = t0 := by
    rw [ht] at ht0
    simpa using ht0
  obtain ⟨he0, he1⟩ := pyMean_bounds (ethicalScores_bounds s.spc_framework)
  obtain ⟨cons0, hc0, hcall⟩ := consScores_ok s.spc_framework hfld
  have hcc : cons = cons0 := by
    rw [hc] at hc0
    simpa using hc0
  obtain ⟨c0, hm0, hcm0, hcm1⟩ := pyMeanOpt_ok hcall
  have hm0' : pyMeanOpt cons = some c0 := by
    rw [hcc]
    exact hm0
  have hccc : c = c0 := by
    rw [hm] at hm0'
    simpa using hm0'
  refine ⟨?_, by subst htt; subst hccc; linarith,
    by subst htt; subst hccc; linarith, ?_, ?_⟩
  · simp only [synchronizeSystem, ht, hc, hm]
  · intro hE
    have hnil : synchronizeLayers s.fat_tree = Except.ok (some 0) := by
      simp only [synchronizeLayers, hE, List.mapM_nil,
        show (pure [] : Except PyErr (List (Option ℝ))) = Except.ok []
          from rfl, List.isEmpty_nil, if_true]
    rw [ht] at hnil
    exact (Option.some.injEq _ _ ▸ (Except.ok.injEq _ _ ▸ hnil))
  · intro hR
    constructor
    · rw [ethicalScores, hR]
      rfl
    · have hok : consScores s.spc_framework = Except.ok [] := by
        rw [consScores, hR, List.mapM_nil]
        rfl
      rw [hok] at hc
      have hce : cons = [] := (Except.ok.injEq _ _ ▸ hc).symm
      rw [hce] at hm
      have h0 : (some (0 : ℝ) : Option ℝ) = some c := by
        rw [← hm]
        rfl
      simpa using h0.symm

/-- The single core node of the NaN counterexample system (zero state). -/
def ndC : Node := ⟨NodeId.core 0, Layer.core, (0, 0), some 0, some 0.95⟩

/-- Its aggregation partner (zero state). -/
def ndA : Node := ⟨NodeId.agg 0, Layer.aggregation, (1, 0), some 0, some 0.90⟩

/-- One core node and one aggregation node, both holding the all-zero
state (a draw in the support of `np.random.rand`), one edge, empty
registry. -/
def sysNaN : SystemArchitecture := ⟨buildHierarchy 1 1 0 rand0, fwSys⟩

theorem sysNaN_nodes :
    sysNaN.fat_tree.nodes = [(NodeId.core 0, ndC), (NodeId.agg 0, ndA)] := by
  show (buildHierarchy 1 1 0 rand0).nodes = _
  rw [buildHierarchy_nodes_eq]
  simp [pyRange, rand0, range_one_eq, ndC, ndA]

theorem sysNaN_edges :
    sysNaN.fat_tree.edges = [(NodeId.core 0, NodeId.agg 0)] := by
  show (buildHierarchy 1 1 0 rand0).edges = _
  simp [buildHierarchy, pyRange, range_one_eq]

/-- The record stored by registering `[1]` under the all-NaN field: the
`ethical_fidelity` is NaN (`none`). -/
def qsN : QuantumState := ⟨[1], calcCoherence [1], entA, none⟩

/-- A dimension-1 framework as left by `SPCFramework.__init__(1)` with the
all-zero draw (NaN field) followed by one successful registration. -/
def fwNaNF : SPCFramework :=
  ⟨1, [(idA, qsN)], defaultConstraints, some (FieldVal.nan 1)⟩

/-- A system carrying `fwNaNF` (empty fat tree, so every node state
vacuously has nonzero norm). -/
def sysNaNF : SystemArchitecture := ⟨buildHierarchy 0 0 0 rand0, fwNaNF⟩

theorem normalize_zero_single : normalize [(0 : ℂ)] = none := by
  rw [normalize, if_pos]
  rw [cnorm, show cnormSq [(0 : ℂ)] = 0 by
    simp [cnormSq_cons, cnormSq_nil], Real.sqrt_zero]

/-- The `__init__` of a dimension-1 framework with the exactly-zero draw
really leaves the all-NaN field (`0/0` per entry). -/
theorem mkSPC_zero_draw :
    mkSPCFramework 1 [0] =
      Except.ok ⟨1, [], defaultConstraints, some (FieldVal.nan 1)⟩ := by
  rw [mkSPCFramework, if_neg (by norm_num)]
  have hmf : mkField [(0 : ℂ)] = FieldVal.nan 1 := by
    simp only [mkField, normalize_zero_single]
    rw [if_neg (by simp)]
    rfl
  rw [hmf]

/-- Registering `[1]` in the NaN-field framework succeeds — `np.vdot`
against the NaN field merely yields a NaN fidelity, raising nothing — and
stores the record `qsN`, so `fwNaNF` is reachable through the public
API. -/
theorem create_under_nan_field :
    createQuantumState ⟨1, [], defaultConstraints, some (FieldVal.nan 1)⟩
      idA [1] [0] = Except.ok (fwNaNF, qsN) := by
  apply createQuantumState_eq_ok.mpr
  refine ⟨[1], entA, none, normalize_one, entropyA, ?_, rfl, rfl⟩
  simp only [calcEthicalFidelity]
  rw [if_neg (by simp)]

/-- Claim C5, counterexample. Two reachable NaN paths refute "this return
value always lies in [0,1]".  First, on the system with one edge joining
two zero-state nodes, the fidelity computation divides `0/0` and
`synchronize_system` returns NaN (`none`).  Second, even with every node
state of nonzero norm (here: no nodes at all), the all-zero consciousness
field draw at construction (`mkSPC_zero_draw`) followed by a successful
registration (`create_under_nan_field`, which stores the NaN-fidelity
record `qsN` and yields exactly `fwNaNF`) makes the consciousness
integration `clip(NaN) = NaN`, and `synchronize_system` again returns
NaN. -/
theorem synchronize_system_returns_nan :
    synchronizeSystem sysNaN = Except.ok none ∧
    synchronizeSystem sysNaNF = Except.ok none := by
  constructor
  · have hef : edgeFidelity sysNaN.fat_tree.nodes
        (NodeId.core 0, NodeId.agg 0) = Except.ok none := by
      rw [sysNaN_nodes]
      have h1 : dictFind (NodeId.core 0) [(NodeId.core 0, ndC),
          (NodeId.agg 0, ndA)] = some ndC := by
        rw [dictFind, if_pos rfl]
      have h2 : dictFind (NodeId.agg 0) [(NodeId.core 0, ndC),
          (NodeId.agg 0, ndA)] = some ndA := by
        rw [dictFind, if_neg (by decide), dictFind, if_pos rfl]
      simp only [edgeFidelity, dictGet, h1, h2]
      rw [show ndC.quantum_state = some 0 from rfl,
        show ndA.quantum_state = some 0 from rfl]
      rw [calcSyncFidelity, if_pos (by rw [frobNorm_zero]; ring)]
    have hmm : sysNaN.fat_tree.edges.mapM
        (edgeFidelity sysNaN.fat_tree.nodes) = Except.ok [none] := by
      rw [sysNaN_edges, List.mapM_cons, hef, List.mapM_nil]
      rfl
    have hsl : synchronizeLayers sysNaN.fat_tree = Except.ok none := by
      simp only [synchronizeLayers, hmm]
      rw [sysNaN_edges]
      simp [optSum]
    have hcs : consScores sysNaN.spc_framework = Except.ok [] := by
      rw [consScores,
        show sysNaN.spc_framework.quantum_states = [] from rfl,
        List.mapM_nil]
      rfl
    simp [synchronizeSystem, hsl, hcs]
  · have hslF : synchronizeLayers sysNaNF.fat_tree = Except.ok (some 0) := by
      have heF : sysNaNF.fat_tree.edges = [] := by
        show (buildHierarchy 0 0 0 rand0).edges = _
        simp [buildHierarchy, pyRange]
      simp only [synchronizeLayers, heF, List.mapM_nil,
        show (pure [] : Except PyErr (List (Option ℝ))) = Except.ok []
          from rfl, List.isEmpty_nil, if_true]
    have hint : consIntegration sysNaNF.spc_framework idA =
        Except.ok none := by
      have hfind : dictFind idA sysNaNF.spc_framework.quantum_states =
          some qsN := by
        rw [show sysNaNF.spc_framework.quantum_states = [(idA, qsN)]
          from rfl, dictFind, if_pos rfl]
      simp only [consIntegration, hfind,
        show sysNaNF.spc_framework.consciousness_field =
          some (FieldVal.nan 1) from rfl]
      rw [if_neg (by simp [qsN])]
    have hcsF : consScores sysNaNF.spc_framework = Except.ok [none] := by
      rw [consScores,
        show sysNaNF.spc_framework.quantum_states = [(idA, qsN)] from rfl,
        List.mapM_cons]
      rw [show (consIntegration sysNaNF.spc_framework (idA, qsN).1 :
          Except PyErr (Option ℝ)) = Except.ok none from hint,
        List.mapM_nil]
      rfl
    have hpm : pyMeanOpt [none] = none := by
      rw [pyMeanOpt, if_neg (by simp)]
      rfl
    simp only [synchronizeSystem, hslF, hcsF, hpm]

def fwW : SPCFramework := ⟨1, [], defaultConstraints, none⟩

/-- An empty system: no nodes, no edges, empty registry, field `None`. -/
def sysW : SystemArchitecture := ⟨buildHierarchy 0 0 0 rand0, fwW⟩

theorem sysW_edges : sysW.fat_tree.edges = [] := by
  show (buildHierarchy 0 0 0 rand0).edges = _
  simp [buildHierarchy, pyRange]

theorem sysW_nodes : sysW.fat_tree.nodes = [] := by
  show (buildHierarchy 0 0 0 rand0).nodes = _
  rw [buildHierarchy_nodes_eq]
  simp [pyRange]

/-- Witness for the amended C5 on the empty system: all three components
are empty and contribute `0`, and the returned value is in `[0, 1]`. -/
theorem synchronize_mean_and_range_witness :
    synchronizeSystem sysW = Except.ok (some
      ((0 + pyMean (ethicalScores sysW.spc_framework) + 0) / 3)) ∧
    0 ≤ ((0 : ℝ) + pyMean (ethicalScores sysW.spc_framework) + 0) / 3 ∧
    ((0 : ℝ) + pyMean (ethicalScores sysW.spc_framework) + 0) / 3 ≤ 1 := by
  have htW : synchronizeLayers sysW.fat_tree = Except.ok (some 0) := by
    simp only [synchronizeLayers, sysW_edges, List.mapM_nil,
      show (pure [] : Except PyErr (List (Option ℝ))) = Except.ok []
        from rfl, List.isEmpty_nil, if_true]
  have hcW : consScores sysW.spc_framework = Except.ok [] := by
    rw [consScores, show sysW.spc_framework.quantum_states = [] from rfl,
      List.mapM_nil]
    rfl
  have hed : ∀ e ∈ sysW.fat_tree.edges,
      (dictFind e.1 sysW.fat_tree.nodes).isSome = true ∧
      (dictFind e.2 sysW.fat_tree.nodes).isSome = true := by
    intro e he
    rw [sysW_edges] at he
    simp at he
  have hst : ∀ p ∈ sysW.fat_tree.nodes, ∀ m : Mat,
      p.2.quantum_state = some m → frobNorm m ≠ 0 := by
    intro p hp
    rw [sysW_nodes] at hp
    simp at hp
  have hfld : GoodField sysW.spc_framework := Or.inl rfl
  obtain ⟨h1, h2, h3, _, _⟩ :=
    synchronize_mean_and_range sysW 0 0 [] htW hcW rfl hed hst hfld
  exact ⟨h1, h2, h3⟩

end TSNNP
